import Mathlib

/-!
Verification of the mouse-tracking core of the Shortcut-Composer repository.

The Python sources are embedded shallowly:
* floating-point values (`Interpreted`, scale factors) are modelled as `ℚ`;
* pixel coordinates (`MouseInput`, an `int` NewType) are modelled as `ℤ`;
* Python's built-in `round` (banker's rounding: nearest integer, ties to
  even) is modelled by `pyRound`;
* fallible operations (list indexing / lookup, which raise `IndexError` /
  `ValueError`) return `Option`.
-/

namespace ShortcutComposer

/-- Python's built-in `round` on an exact numeric value: round to the
nearest integer, ties going to the even integer. -/
def pyRound (q : ℚ) : ℤ :=
  if Int.fract q < 1/2 then ⌊q⌋
  else if 1/2 < Int.fract q then ⌊q⌋ + 1
  else if ⌊q⌋ % 2 = 0 then ⌊q⌋ else ⌊q⌋ + 1

/-!
## `mouse_interpreter.py`

```python
@dataclass
class MouseInterpreter:
    min: Interpreted
    max: Interpreted
    mouse_origin: MouseInput
    start_value: Interpreted
    pixels_in_unit: float
```
State updates (`self.mouse_origin = ...`) become explicit state passing:
each method that mutates returns the new `MouseInterpreter`.
-/

structure MouseInterpreter where
  min : ℚ
  max : ℚ
  mouse_origin : ℤ
  start_value : ℚ
  pixels_in_unit : ℚ
  deriving DecidableEq, Repr

namespace MouseInterpreter

/-- `def _delta(self, mouse): return (mouse - self.mouse_origin)/self.pixels_in_unit` -/
def delta (s : MouseInterpreter) (mouse : ℤ) : ℚ :=
  ((mouse : ℚ) - (s.mouse_origin : ℚ)) / s.pixels_in_unit

/-- `def _clip(self, value): return Interpreted(min(max(self.min, value), self.max))` -/
def clip (s : MouseInterpreter) (value : ℚ) : ℚ :=
  Min.min (Max.max s.min value) s.max

/-- ```python
def _recalibrate(self, value):
    delta = (self.min - value)*self.pixels_in_unit
    if delta > 0:
        self.mouse_origin = MouseInput(round(self.mouse_origin - delta))
    delta = (self.max - value)*self.pixels_in_unit
    if delta < 0:
        self.mouse_origin = MouseInput(round(self.mouse_origin - delta))
``` -/
def recalibrate (s : MouseInterpreter) (value : ℚ) : MouseInterpreter :=
  let d1 := (s.min - value) * s.pixels_in_unit
  let s1 := if d1 > 0
    then { s with mouse_origin := pyRound ((s.mouse_origin : ℚ) - d1) }
    else s
  let d2 := (s1.max - value) * s1.pixels_in_unit
  if d2 < 0
    then { s1 with mouse_origin := pyRound ((s1.mouse_origin : ℚ) - d2) }
    else s1

/-- ```python
def interpret(self, mouse):
    value = self.start_value + self._delta(mouse)
    self._recalibrate(value)
    return self._clip(value)
```
Returns the post-call state together with the returned value. -/
def interpret (s : MouseInterpreter) (mouse : ℤ) : MouseInterpreter × ℚ :=
  let value := s.start_value + s.delta mouse
  let s2 := s.recalibrate value
  (s2, s2.clip value)

/-- The raw (un-clipped) value the interpreter assigns to a mouse position. -/
def rawValue (s : MouseInterpreter) (mouse : ℤ) : ℚ :=
  s.start_value + s.delta mouse

end MouseInterpreter

/-!
## `slider_values.py`

Controlled values are modelled as rationals (the numeric sliders of the
repository).  Python's fallible list operations return `Option`:
`xs[i]` raises `IndexError` outside bounds (a negative index counts from
the back once), `xs.index(v)` raises `ValueError` when `v` is absent.
-/

/-- The `Range` configuration dataclass.  Modelled from the spec: the
`data_components.Range` source file is not part of the excerpt; the spec
describes it as a plain `Range{min,max}` record of two bounds. -/
structure Range where
  min : ℚ
  max : ℚ
  deriving DecidableEq, Repr

/-- Python list subscription `xs[i]`: a negative index counts from the
back; an index still out of bounds raises `IndexError` (`none`). -/
def pyGet (xs : List ℚ) (i : ℤ) : Option ℚ :=
  if 0 ≤ i then xs[i.toNat]?
  else if 0 ≤ i + xs.length then xs[(i + (xs.length : ℤ)).toNat]?
  else none

/-- Python `xs.index(v)`: position of the first occurrence of `v`, raising
`ValueError` (`none`) when `v` is absent. -/
def pyListIndex (xs : List ℚ) (v : ℚ) : Option ℕ :=
  match xs with
  | [] => none
  | x :: rest => if x = v then some 0 else (pyListIndex rest v).map (· + 1)

/-- State built by `RangeSliderValues.__init__`:
```python
self.min = Interpreted(values.min)
self.max = Interpreted(values.max)
self.__default = Interpreted((self.min + self.max)*0.5)
``` -/
structure RangeSliderValues where
  min : ℚ
  max : ℚ
  default : ℚ
  deriving DecidableEq, Repr

def RangeSliderValues.ofRange (values : Range) : RangeSliderValues :=
  { min := values.min
    max := values.max
    default := (values.min + values.max) * (1/2) }

namespace RangeSliderValues

/-- ```python
def at(self, value):
    if not self.min <= value <= self.max:
        return Controlled(self.__default)
    return Controlled(value)
``` -/
def at' (s : RangeSliderValues) (value : ℚ) : ℚ :=
  if ¬ (s.min ≤ value ∧ value ≤ s.max) then s.default else value

/-- ```python
def index(self, value):
    if not self.min <= value <= self.max:
        return Controlled(self.__default)
    return Interpreted(value)
``` -/
def index (s : RangeSliderValues) (value : ℚ) : ℚ :=
  if ¬ (s.min ≤ value ∧ value ≤ s.max) then s.default else value

end RangeSliderValues

/-- `ListSliderValues.__init__` stores the backing list; `min` and the
default are the constants `-0.49` and `0`, `max` is recomputed from the
current list length. -/
structure ListSliderValues where
  values : List ℚ
  deriving DecidableEq, Repr

namespace ListSliderValues

/-- `self.min = Interpreted(-0.49)` -/
def min (_ : ListSliderValues) : ℚ := -49/100

/-- `self.__default = Interpreted(0)` -/
def default (_ : ListSliderValues) : ℚ := 0

/-- `max` property: `Interpreted(len(self.__values) - 0.51)`. -/
def max (s : ListSliderValues) : ℚ := (s.values.length : ℚ) - 51/100

/-- ```python
def at(self, value):
    if not self.min <= value <= self.max:
        value = self.__default
    return Controlled(self.__values[round(value)])
``` -/
def at' (s : ListSliderValues) (value : ℚ) : Option ℚ :=
  let v := if ¬ (s.min ≤ value ∧ value ≤ s.max) then s.default else value
  pyGet s.values (pyRound v)

/-- ```python
def index(self, value):
    if value not in self.__values:
        value = self.__default
    return Interpreted(self.__values.index(value))
```
Note that the substituted default is the number `0`, which is then looked
up in the list like any other value. -/
def index (s : ListSliderValues) (value : ℚ) : Option ℚ :=
  let v := if value ∉ s.values then s.default else value
  (pyListIndex s.values v).map (fun n => (n : ℚ))

end ListSliderValues

/-!
## `angle_iterator.py`
-/

/-- IEEE-754 binary64 rounding of an exact rational: round to 53
significant bits, to nearest, ties to even (on the scaled mantissa this
tie rule is exactly `pyRound`).  Python floats are binary64, and `+` and
`/` on them return the correctly rounded exact result, i.e. `fl` of the
exact rational sum / quotient.  Overflow and subnormals are not modelled:
every value the angle loop manipulates lies well inside the normal range. -/
def fl (q : ℚ) : ℚ :=
  if 0 < q then (pyRound (q / 2 ^ (Int.log 2 q - 52)) : ℚ) * 2 ^ (Int.log 2 q - 52)
  else if q < 0 then
    -((pyRound (-q / 2 ^ (Int.log 2 (-q) - 52)) : ℚ) * 2 ^ (Int.log 2 (-q) - 52))
  else 0

/-- `AngleIterator._float_range`:
```python
while start < end:
    yield start
    start += step
```
`start += step` is binary64 addition, `fl` of the exact sum.  The loop can
run forever (for instance when `step` is so small that `start + step`
rounds back to `start`), so the model is indexed by `fuel`, a bound on the
number of loop tests: a run that exits through the loop condition within
its fuel is the generator's entire yield sequence (`floatRangeF_mono`). -/
def floatRangeF (fuel : ℕ) (start endv step : ℚ) : List ℚ :=
  match fuel with
  | 0 => []
  | fuel + 1 =>
    if start < endv then start :: floatRangeF fuel (fl (start + step)) endv step
    else []

/-- The constructor arguments of `AngleIterator`. -/
structure AngleIterator where
  center_distance : ℤ
  radius : ℤ
  amount : ℕ
  deriving DecidableEq, Repr

/-- `AngleIterator.__iter__`:
```python
for angle in self._float_range(0, 360, 360/self._amount):
    yield round(angle), self._center_from_angle(angle)
```
`360/self._amount` is binary64 division, `fl` of the exact quotient.
`_center_from_angle` computes `sin`/`cos` of the angle, a transcendental
map outside exact arithmetic; it enters the model as the parameter
`center_from_angle`, which the claims below never need to evaluate.  The
`fuel` bound is inherited from `floatRangeF`. -/
def AngleIterator.iterF (it : AngleIterator) (fuel : ℕ)
    (center_from_angle : ℚ → ℤ × ℤ) : List (ℤ × (ℤ × ℤ)) :=
  (floatRangeF fuel 0 360 (fl (360 / (it.amount : ℚ)))).map
    (fun angle => (pyRound angle, center_from_angle angle))

/-!
## `slider_handler.py`
-/

/-- Outcome of one deadzone-wait phase. -/
inductive HandlerOutcome where
  | tracking
  | idle
  | pending
  deriving DecidableEq, Repr

/-- `SliderHandler._start_after_deadzone`:
```python
start_point = self.read_mouse()
while abs(start_point - self.read_mouse()) <= self.__slider.deadzone:
    if not self.__working:
        return
    sleep(self.__slider.sleep_time)
self._value_setting_loop()
```
The loop is modelled over a trace of samples, one per iteration: each
iteration reads the mouse once (for the displacement test) and then the
`working` flag.  Leaving the loop enters the value-setting loop
(`tracking`); a cleared flag returns (`idle`); an exhausted trace means
the loop is still waiting (`pending`). -/
def start_after_deadzone (deadzone : ℤ) (start_point : ℤ) :
    List (ℤ × Bool) → HandlerOutcome
  | [] => .pending
  | (mouse, working) :: rest =>
      if |start_point - mouse| ≤ deadzone then
        if working then start_after_deadzone deadzone start_point rest
        else .idle
      else .tracking

end ShortcutComposer

namespace ShortcutComposer

theorem pyRound_intCast (n : ℤ) : pyRound (n : ℚ) = n := by
  simp [pyRound, Int.fract_intCast]

theorem pyRound_natCast (n : ℕ) : pyRound (n : ℚ) = n := by
  simpa using pyRound_intCast (n : ℤ)

/-- The rounding error of Python's `round` is at most a half. -/
theorem abs_pyRound_sub_le (q : ℚ) : |(pyRound q : ℚ) - q| ≤ 1/2 := by
  have hfloor : (⌊q⌋ : ℚ) = q - Int.fract q := (Int.self_sub_fract q).symm
  have h0 : 0 ≤ Int.fract q := Int.fract_nonneg q
  have h1 : Int.fract q < 1 := Int.fract_lt_one q
  unfold pyRound
  split
  · rw [abs_le]
    constructor <;> rw [hfloor] <;> linarith
  · split
    · rw [abs_le]
      constructor <;> push_cast <;> rw [hfloor] <;> linarith
    · have heq : Int.fract q = 1/2 := by linarith
      split
      · rw [abs_le]
        constructor <;> rw [hfloor, heq] <;> linarith
      · rw [abs_le]
        constructor <;> push_cast <;> rw [hfloor, heq] <;> linarith

theorem pyRound_zero : pyRound (0 : ℚ) = 0 := by
  simpa using pyRound_intCast 0

/-- Subscription of the empty list always raises. -/
theorem pyGet_nil (i : ℤ) : pyGet [] i = none := by
  unfold pyGet
  split_ifs <;> simp

/-- `list.index` raises exactly when the value is absent. -/
theorem pyListIndex_not_mem (xs : List ℚ) (v : ℚ) (h : v ∉ xs) :
    pyListIndex xs v = none := by
  induction xs with
  | nil => rfl
  | cons x rest ih =>
    have hx : ¬ x = v := fun hxv => h (hxv ▸ List.mem_cons_self x rest)
    have hrest : v ∉ rest := fun hm => h (List.mem_cons_of_mem x hm)
    simp [pyListIndex, hx, ih hrest]

/-- For a present value, `list.index` returns a valid position holding it. -/
theorem pyListIndex_mem (xs : List ℚ) (v : ℚ) (h : v ∈ xs) :
    ∃ n, pyListIndex xs v = some n ∧ n < xs.length ∧ xs[n]? = some v := by
  induction xs with
  | nil => cases h
  | cons x rest ih =>
    by_cases hx : x = v
    · exact ⟨0, by simp [pyListIndex, hx], by simp, by simp [hx]⟩
    · have hmem : v ∈ rest := by
        rcases List.mem_cons.mp h with h1 | h1
        · exact absurd h1.symm hx
        · exact h1
      obtain ⟨n, h1, h2, h3⟩ := ih hmem
      exact ⟨n + 1, by simp [pyListIndex, hx, h1], by simpa using h2, by simpa using h3⟩

/-- A value at least `-0.49` rounds to a non-negative index. -/
theorem pyRound_nonneg_of (v : ℚ) (h : -49/100 ≤ v) : 0 ≤ pyRound v := by
  have hb := (abs_le.mp (abs_pyRound_sub_le v)).1
  by_contra hneg
  push_neg at hneg
  have h1 : pyRound v ≤ -1 := by omega
  have h2 : (pyRound v : ℚ) ≤ -1 := by exact_mod_cast h1
  linarith

/-- A value at most `len - 0.51` rounds below the list length. -/
theorem pyRound_lt_length (v : ℚ) (L : ℕ) (h : v ≤ (L : ℚ) - 51/100) :
    pyRound v < (L : ℤ) := by
  have hb := (abs_le.mp (abs_pyRound_sub_le v)).2
  by_contra hge
  push_neg at hge
  have h2 : ((L : ℤ) : ℚ) ≤ (pyRound v : ℚ) := by exact_mod_cast hge
  push_cast at h2
  linarith

/-- C1 as stated by the spec is false: over `Range(min=0, max=100)` with
`pixels_in_unit=1`, `start_value=50` and `mouse_origin=0`, calling
`interpret(200)` and then `interpret(0)` does not return 50 on the second
call.  The outward motion recalibrates `mouse_origin` to 150, so the full
reversal overshoots the range bottom and the second call returns 0. -/
theorem interpret_full_reversal_counterexample :
    ((((⟨0, 100, 0, 50, 1⟩ : MouseInterpreter).interpret 200).1).interpret 0).2 ≠ 50 := by
  have h1 : ((⟨0, 100, 0, 50, 1⟩ : MouseInterpreter).interpret 200)
      = (⟨0, 100, 150, 50, 1⟩, 100) := by
    norm_num [MouseInterpreter.interpret, MouseInterpreter.recalibrate,
      MouseInterpreter.delta, MouseInterpreter.clip, pyRound, Int.fract,
      max_def, min_def]
  rw [h1]
  norm_num [MouseInterpreter.interpret, MouseInterpreter.recalibrate,
    MouseInterpreter.delta, MouseInterpreter.clip, pyRound, Int.fract,
    max_def, min_def]

/-- C1 (amended): over `Range(min=0, max=100)` with `pixels_in_unit=1`,
`start_value=50` and `mouse_origin=0`, `interpret(200)` returns 100 and
recalibrates `mouse_origin` to 150; the subsequent `interpret(0)` then
returns 0, not 50: recalibration during the outward motion removes the
dead travel, so a full pointer reversal drives the value to the bottom
bound instead of restoring the starting value. -/
theorem interpret_full_reversal :
    ((⟨0, 100, 0, 50, 1⟩ : MouseInterpreter).interpret 200).2 = 100 ∧
    (((⟨0, 100, 0, 50, 1⟩ : MouseInterpreter).interpret 200).1).mouse_origin = 150 ∧
    ((((⟨0, 100, 0, 50, 1⟩ : MouseInterpreter).interpret 200).1).interpret 0).2 = 0 := by
  have h1 : ((⟨0, 100, 0, 50, 1⟩ : MouseInterpreter).interpret 200)
      = (⟨0, 100, 150, 50, 1⟩, 100) := by
    norm_num [MouseInterpreter.interpret, MouseInterpreter.recalibrate,
      MouseInterpreter.delta, MouseInterpreter.clip, pyRound, Int.fract,
      max_def, min_def]
  rw [h1]
  norm_num [MouseInterpreter.interpret, MouseInterpreter.recalibrate,
    MouseInterpreter.delta, MouseInterpreter.clip, pyRound, Int.fract,
    max_def, min_def]

/-- Only `mouse_origin` can change across a call to `interpret`. -/
theorem interpret_preserves_fields (s : MouseInterpreter) (mouse : ℤ) :
    ((s.interpret mouse).1).start_value = s.start_value ∧
    ((s.interpret mouse).1).min = s.min ∧
    ((s.interpret mouse).1).max = s.max ∧
    ((s.interpret mouse).1).pixels_in_unit = s.pixels_in_unit := by
  unfold MouseInterpreter.interpret MouseInterpreter.recalibrate
  dsimp only
  split <;> split <;> simp

/-- C9: `interpret` may change only `mouse_origin`: the fields
`start_value`, `min`, `max` and `pixels_in_unit` are exactly the same
after the call as before it (in particular recalibration never alters
`start_value`). -/
theorem interpret_frame (s : MouseInterpreter) (mouse : ℤ) :
    ((s.interpret mouse).1).start_value = s.start_value ∧
    ((s.interpret mouse).1).min = s.min ∧
    ((s.interpret mouse).1).max = s.max ∧
    ((s.interpret mouse).1).pixels_in_unit = s.pixels_in_unit :=
  interpret_preserves_fields s mouse

/-- C7: with `min ≤ max`, `_clip` is the identity on `[min, max]`, clamps
values below `min` to `min` and values above `max` to `max`; consequently
every value returned by `interpret` lies in `[min, max]`. -/
theorem clip_spec (s : MouseInterpreter) (h : s.min ≤ s.max) :
    (∀ v : ℚ, s.min ≤ v → v ≤ s.max → s.clip v = v) ∧
    (∀ v : ℚ, v < s.min → s.clip v = s.min) ∧
    (∀ v : ℚ, s.max < v → s.clip v = s.max) ∧
    (∀ mouse : ℤ, s.min ≤ (s.interpret mouse).2 ∧ (s.interpret mouse).2 ≤ s.max) := by
  refine ⟨?_, ?_, ?_, ?_⟩
  · intro v h1 h2
    unfold MouseInterpreter.clip
    rw [max_eq_right h1, min_eq_left h2]
  · intro v hv
    unfold MouseInterpreter.clip
    rw [max_eq_left hv.le, min_eq_left h]
  · intro v hv
    unfold MouseInterpreter.clip
    rw [max_eq_right (h.trans hv.le), min_eq_right hv.le]
  · intro mouse
    obtain ⟨-, hmin, hmax, -⟩ := interpret_preserves_fields s mouse
    have h2 : (s.interpret mouse).2
        = ((s.interpret mouse).1).clip (s.start_value + s.delta mouse) := rfl
    rw [h2]
    unfold MouseInterpreter.clip
    rw [hmin, hmax]
    exact ⟨le_min (le_max_left _ _) h, min_le_right _ _⟩

/-- Witness for C7 at the interpreter over `[0, 100]`: clip is the
identity at 50, clamps -7 to 0 and 123 to 100, and the value returned by
`interpret(200)` lies in `[0, 100]`. -/
theorem clip_spec_witness :
    (0 : ℚ) ≤ 100 ∧
    (⟨0, 100, 0, 50, 1⟩ : MouseInterpreter).clip 50 = 50 ∧
    (⟨0, 100, 0, 50, 1⟩ : MouseInterpreter).clip (-7) = 0 ∧
    (⟨0, 100, 0, 50, 1⟩ : MouseInterpreter).clip 123 = 100 ∧
    (0 : ℚ) ≤ ((⟨0, 100, 0, 50, 1⟩ : MouseInterpreter).interpret 200).2 ∧
    ((⟨0, 100, 0, 50, 1⟩ : MouseInterpreter).interpret 200).2 ≤ 100 := by
  have h := clip_spec (⟨0, 100, 0, 50, 1⟩ : MouseInterpreter) (by norm_num)
  exact ⟨by norm_num, h.1 50 (by norm_num) (by norm_num), h.2.1 (-7) (by norm_num),
    h.2.2.1 123 (by norm_num), (h.2.2.2 200).1, (h.2.2.2 200).2⟩

/-- With a positive scale and `min ≤ max`, a raw value below `min` fires
exactly the first recalibration branch. -/
theorem recalibrate_of_lt_min (s : MouseInterpreter) (v : ℚ)
    (hpiu : 0 < s.pixels_in_unit) (hr : s.min ≤ s.max) (h : v < s.min) :
    s.recalibrate v = { s with
      mouse_origin := pyRound ((s.mouse_origin : ℚ) - (s.min - v) * s.pixels_in_unit) } := by
  unfold MouseInterpreter.recalibrate
  have h1 : (s.min - v) * s.pixels_in_unit > 0 := mul_pos (by linarith) hpiu
  have h2 : ¬ ((s.max - v) * s.pixels_in_unit < 0) := by
    push_neg
    exact mul_nonneg (by linarith) hpiu.le
  simp only [if_pos h1, if_neg h2]

/-- With a positive scale and `min ≤ max`, a raw value above `max` fires
exactly the second recalibration branch. -/
theorem recalibrate_of_max_lt (s : MouseInterpreter) (v : ℚ)
    (hpiu : 0 < s.pixels_in_unit) (hr : s.min ≤ s.max) (h : s.max < v) :
    s.recalibrate v = { s with
      mouse_origin := pyRound ((s.mouse_origin : ℚ) - (s.max - v) * s.pixels_in_unit) } := by
  unfold MouseInterpreter.recalibrate
  have h1 : ¬ ((s.min - v) * s.pixels_in_unit > 0) := by
    push_neg
    have : (s.min - v) * s.pixels_in_unit ≤ 0 :=
      mul_nonpos_of_nonpos_of_nonneg (by linarith) hpiu.le
    exact this
  have h2 : (s.max - v) * s.pixels_in_unit < 0 :=
    mul_neg_of_neg_of_pos (by linarith) hpiu
  simp only [if_neg h1, if_pos h2]

/-- With a positive scale, a raw value inside `[min, max]` leaves the
interpreter unchanged. -/
theorem recalibrate_of_mem (s : MouseInterpreter) (v : ℚ)
    (hpiu : 0 < s.pixels_in_unit) (h1 : s.min ≤ v) (h2 : v ≤ s.max) :
    s.recalibrate v = s := by
  unfold MouseInterpreter.recalibrate
  have hd1 : ¬ ((s.min - v) * s.pixels_in_unit > 0) := by
    push_neg
    exact mul_nonpos_of_nonpos_of_nonneg (by linarith) hpiu.le
  have hd2 : ¬ ((s.max - v) * s.pixels_in_unit < 0) := by
    push_neg
    exact mul_nonneg (by linarith) hpiu.le
  simp only [if_neg hd1, if_neg hd2]

/-- The value returned by `interpret` is the clip of the raw value against
the caller's (unchanged) bounds: recalibration moves only the origin. -/
theorem interpret_snd (s : MouseInterpreter) (m : ℤ) :
    (s.interpret m).2 = Min.min (Max.max s.min (s.rawValue m)) s.max := by
  unfold MouseInterpreter.interpret MouseInterpreter.recalibrate
    MouseInterpreter.clip MouseInterpreter.rawValue
  dsimp only
  split <;> split <;> rfl

/-- Shifting the origin to `round(origin - (b - rawValue)*pixels_in_unit)`
makes the recomputed raw value at the same mouse position equal `b` up to
the half-pixel rounding of the new origin. -/
theorem rawValue_shift_err (s : MouseInterpreter) (mouse : ℤ) (b : ℚ)
    (hpiu : 0 < s.pixels_in_unit) :
    |({ s with mouse_origin := pyRound ((s.mouse_origin : ℚ)
          - (b - s.rawValue mouse) * s.pixels_in_unit) } : MouseInterpreter).rawValue mouse - b|
      ≤ 1 / (2 * s.pixels_in_unit) := by
  have hne : s.pixels_in_unit ≠ 0 := ne_of_gt hpiu
  set t := (s.mouse_origin : ℚ) - (b - s.rawValue mouse) * s.pixels_in_unit with ht
  have hraw : ({ s with mouse_origin := pyRound t } : MouseInterpreter).rawValue mouse
      = s.start_value + ((mouse : ℚ) - (pyRound t : ℚ)) / s.pixels_in_unit := rfl
  have hexact : s.start_value + ((mouse : ℚ) - t) / s.pixels_in_unit = b := by
    rw [ht]
    unfold MouseInterpreter.rawValue MouseInterpreter.delta
    field_simp
    ring
  have key : ({ s with mouse_origin := pyRound t } : MouseInterpreter).rawValue mouse - b
      = (t - (pyRound t : ℚ)) / s.pixels_in_unit := by
    rw [hraw, ← hexact]
    field_simp
  rw [key, abs_div, abs_of_pos hpiu, abs_sub_comm, ← div_div]
  exact div_le_div_of_nonneg_right (abs_pyRound_sub_le t) hpiu.le

/-- C5: when the raw value `start_value + (mouse - mouse_origin)/pixels_in_unit`
is below `min`, the call shifts `mouse_origin` by `-(min - value)*pixels_in_unit`
rounded to an integer pixel, after which the recomputed raw value at the same
mouse position equals `min` up to the half-pixel rounding of the new origin;
symmetrically for a value above `max`; a value inside `[min, max]` leaves
`mouse_origin` unchanged. -/
theorem recalibrate_spec (s : MouseInterpreter) (mouse : ℤ)
    (hpiu : 0 < s.pixels_in_unit) (hr : s.min ≤ s.max) :
    (s.rawValue mouse < s.min →
      ((s.interpret mouse).1).mouse_origin
        = pyRound ((s.mouse_origin : ℚ) - (s.min - s.rawValue mouse) * s.pixels_in_unit) ∧
      |((s.interpret mouse).1).rawValue mouse - s.min| ≤ 1 / (2 * s.pixels_in_unit)) ∧
    (s.max < s.rawValue mouse →
      ((s.interpret mouse).1).mouse_origin
        = pyRound ((s.mouse_origin : ℚ) - (s.max - s.rawValue mouse) * s.pixels_in_unit) ∧
      |((s.interpret mouse).1).rawValue mouse - s.max| ≤ 1 / (2 * s.pixels_in_unit)) ∧
    (s.min ≤ s.rawValue mouse → s.rawValue mouse ≤ s.max →
      ((s.interpret mouse).1).mouse_origin = s.mouse_origin) := by
  have hfst : (s.interpret mouse).1 = s.recalibrate (s.rawValue mouse) := rfl
  refine ⟨?_, ?_, ?_⟩
  · intro h
    rw [hfst, recalibrate_of_lt_min s _ hpiu hr h]
    exact ⟨rfl, rawValue_shift_err s mouse s.min hpiu⟩
  · intro h
    rw [hfst, recalibrate_of_max_lt s _ hpiu hr h]
    exact ⟨rfl, rawValue_shift_err s mouse s.max hpiu⟩
  · intro h1 h2
    rw [hfst, recalibrate_of_mem s _ hpiu h1 h2]

/-- Moving the mouse one pixel up raises the raw value by one scale unit. -/
theorem rawValue_succ (s : MouseInterpreter) (m : ℤ) (hne : s.pixels_in_unit ≠ 0) :
    s.rawValue (m + 1) = s.rawValue m + 1 / s.pixels_in_unit := by
  unfold MouseInterpreter.rawValue MouseInterpreter.delta
  push_cast
  field_simp
  ring

/-- Moving the mouse one pixel down lowers the raw value by one scale unit. -/
theorem rawValue_pred (s : MouseInterpreter) (m : ℤ) (hne : s.pixels_in_unit ≠ 0) :
    s.rawValue (m - 1) = s.rawValue m - 1 / s.pixels_in_unit := by
  unfold MouseInterpreter.rawValue MouseInterpreter.delta
  push_cast
  field_simp
  ring

/-- C6: no overshoot after recalibration.  With `min < max` (and a positive
scale), if `interpret(m)` returned a bound then calling `interpret` again
with the pointer one pixel further past that bound returns the same bound. -/
theorem no_overshoot (s : MouseInterpreter) (m : ℤ)
    (hpiu : 0 < s.pixels_in_unit) (hr : s.min < s.max) :
    ((s.interpret m).2 = s.max → (((s.interpret m).1).interpret (m + 1)).2 = s.max) ∧
    ((s.interpret m).2 = s.min → (((s.interpret m).1).interpret (m - 1)).2 = s.min) := by
  have hne : s.pixels_in_unit ≠ 0 := ne_of_gt hpiu
  have hfst : (s.interpret m).1 = s.recalibrate (s.rawValue m) := rfl
  have hhalf : (1 : ℚ) / (2 * s.pixels_in_unit) + 1 / (2 * s.pixels_in_unit)
      = 1 / s.pixels_in_unit := by
    field_simp
    norm_num
  have hhalfpos : (0 : ℚ) < 1 / (2 * s.pixels_in_unit) := by positivity
  obtain ⟨-, hmn, hmx, hpe⟩ := interpret_preserves_fields s m
  constructor
  · intro hmax
    rw [interpret_snd] at hmax
    have h1 : s.max ≤ Max.max s.min (s.rawValue m) := min_eq_right_iff.mp hmax
    have h2 : s.max ≤ s.rawValue m := (le_max_iff.mp h1).resolve_left (not_le.mpr hr)
    rcases eq_or_lt_of_le h2 with heq | hlt
    · have hs' : (s.interpret m).1 = s := by
        rw [hfst]
        exact recalibrate_of_mem s _ hpiu (hr.le.trans heq.le) heq.ge
      have hv2 : s.max < s.rawValue (m + 1) := by
        rw [rawValue_succ s m hne, ← heq]
        have : (0 : ℚ) < 1 / s.pixels_in_unit := by positivity
        linarith
      rw [hs', interpret_snd, max_eq_right (hr.le.trans hv2.le), min_eq_right hv2.le]
    · have hs' : (s.interpret m).1 = { s with
          mouse_origin := pyRound ((s.mouse_origin : ℚ)
            - (s.max - s.rawValue m) * s.pixels_in_unit) } := by
        rw [hfst]
        exact recalibrate_of_max_lt s _ hpiu hr.le hlt
      have herr := rawValue_shift_err s m s.max hpiu
      have hlb : s.max - 1 / (2 * s.pixels_in_unit) ≤ ((s.interpret m).1).rawValue m := by
        rw [hs']
        have := (abs_le.mp herr).1
        linarith
      have hraw2 : ((s.interpret m).1).rawValue (m + 1)
          = ((s.interpret m).1).rawValue m + 1 / s.pixels_in_unit := by
        rw [rawValue_succ _ m (by rw [hpe]; exact hne), hpe]
      have hv2 : s.max < ((s.interpret m).1).rawValue (m + 1) := by
        rw [hraw2]
        linarith
      rw [interpret_snd, hmn, hmx, max_eq_right (hr.le.trans hv2.le), min_eq_right hv2.le]
  · intro hmin
    rw [interpret_snd] at hmin
    have h1 : Max.max s.min (s.rawValue m) = s.min := by
      rcases min_cases (Max.max s.min (s.rawValue m)) s.max with h | h
      · rw [← h.1, hmin]
      · exact absurd (hmin ▸ h.1) (ne_of_gt hr).symm
    have h2 : s.rawValue m ≤ s.min := max_eq_left_iff.mp h1
    rcases eq_or_lt_of_le h2 with heq | hlt
    · have hs' : (s.interpret m).1 = s := by
        rw [hfst]
        exact recalibrate_of_mem s _ hpiu heq.ge (heq.le.trans hr.le)
      have hv2 : s.rawValue (m - 1) < s.min := by
        rw [rawValue_pred s m hne, heq]
        have : (0 : ℚ) < 1 / s.pixels_in_unit := by positivity
        linarith
      rw [hs', interpret_snd, max_eq_left hv2.le, min_eq_left hr.le]
    · have hs' : (s.interpret m).1 = { s with
          mouse_origin := pyRound ((s.mouse_origin : ℚ)
            - (s.min - s.rawValue m) * s.pixels_in_unit) } := by
        rw [hfst]
        exact recalibrate_of_lt_min s _ hpiu hr.le hlt
      have herr := rawValue_shift_err s m s.min hpiu
      have hub : ((s.interpret m).1).rawValue m ≤ s.min + 1 / (2 * s.pixels_in_unit) := by
        rw [hs']
        have := (abs_le.mp herr).2
        linarith
      have hraw2 : ((s.interpret m).1).rawValue (m - 1)
          = ((s.interpret m).1).rawValue m - 1 / s.pixels_in_unit := by
        rw [rawValue_pred _ m (by rw [hpe]; exact hne), hpe]
      have hv2 : ((s.interpret m).1).rawValue (m - 1) < s.min := by
        rw [hraw2]
        linarith
      rw [interpret_snd, hmn, hmx, max_eq_left hv2.le, min_eq_left hr.le]

/-- Witness for C6 at the interpreter over `[0, 100]` with scale 1, origin 0
and start value 50: `interpret(200)` returns the bound 100, and one pixel
further (`interpret(201)`) still returns 100. -/
theorem no_overshoot_witness :
    ((⟨0, 100, 0, 50, 1⟩ : MouseInterpreter).interpret 200).2 = 100 ∧
    ((((⟨0, 100, 0, 50, 1⟩ : MouseInterpreter).interpret 200).1).interpret (200 + 1)).2
      = 100 := by
  have hmax : ((⟨0, 100, 0, 50, 1⟩ : MouseInterpreter).interpret 200).2 = 100 := by
    norm_num [MouseInterpreter.interpret, MouseInterpreter.recalibrate,
      MouseInterpreter.delta, MouseInterpreter.clip, pyRound, Int.fract,
      max_def, min_def]
  exact ⟨hmax,
    (no_overshoot ⟨0, 100, 0, 50, 1⟩ 200 (by norm_num) (by norm_num)).1 hmax⟩

/-- Witness for C5 at the interpreter over `[0, 100]` with scale 1, origin 0
and start value 50, probed at mouse position 200 (raw value 250 above `max`):
the origin recalibrates to 150 and the recomputed raw value is back at the
bound within half a pixel. -/
theorem recalibrate_spec_witness :
    (((⟨0, 100, 0, 50, 1⟩ : MouseInterpreter).interpret 200).1).mouse_origin = 150 ∧
    |(((⟨0, 100, 0, 50, 1⟩ : MouseInterpreter).interpret 200).1).rawValue 200 - 100|
      ≤ 1 / (2 * 1) := by
  have h := (recalibrate_spec ⟨0, 100, 0, 50, 1⟩ 200 (by norm_num) (by norm_num)).2.1
    (by norm_num [MouseInterpreter.rawValue, MouseInterpreter.delta])
  refine ⟨?_, h.2⟩
  rw [h.1]
  norm_num [MouseInterpreter.rawValue, MouseInterpreter.delta, pyRound, Int.fract]

theorem ListSliderValues.values_mk (xs : List ℚ) :
    (ListSliderValues.mk xs).values = xs := rfl

/-- Unfolding lemma for `ListSliderValues.at'` with the `let` inlined. -/
theorem ListSliderValues.at_eq (s : ListSliderValues) (value : ℚ) :
    s.at' value = pyGet s.values
      (pyRound (if ¬ (s.min ≤ value ∧ value ≤ s.max) then s.default else value)) := rfl

/-- Unfolding lemma for `ListSliderValues.index` with the `let` inlined. -/
theorem ListSliderValues.index_eq (s : ListSliderValues) (value : ℚ) :
    s.index value = (pyListIndex s.values
      (if value ∉ s.values then s.default else value)).map (fun n => (n : ℚ)) := rfl

/-- C10: over the empty list every `at` call raises (`none`, the
`IndexError` of indexing `[]` at the default index 0) and every `index`
call raises (`none`, the `ValueError` of looking up the default 0 in `[]`):
`min = -0.49` exceeds `max = -0.51`, so no argument is in range and the
substituted default is itself out of bounds / absent. -/
theorem empty_list_slider_values (v : ℚ) :
    (ListSliderValues.mk []).at' v = none ∧
    (ListSliderValues.mk []).index v = none ∧
    (ListSliderValues.mk []).max < (ListSliderValues.mk []).min ∧
    ¬ ((ListSliderValues.mk []).min ≤ v ∧ v ≤ (ListSliderValues.mk []).max) := by
  refine ⟨pyGet_nil _, rfl, ?_, ?_⟩
  · norm_num [ListSliderValues.max, ListSliderValues.min]
  · rintro ⟨h1, h2⟩
    rw [ListSliderValues.min] at h1
    rw [ListSliderValues.max] at h2
    norm_num at h1 h2
    linarith

/-- Witness for C10 at argument 0: both lookups on the empty list fail. -/
theorem empty_list_slider_values_witness :
    (ListSliderValues.mk []).at' 0 = none ∧
    (ListSliderValues.mk []).index 0 = none :=
  ⟨(empty_list_slider_values 0).1, (empty_list_slider_values 0).2.1⟩

/-- C2 as stated is false: the list backend can error.  Over the empty
list `at(0)` raises `IndexError`; over the non-empty list `[5]`,
`index(7)` substitutes the numeric default 0 and then raises `ValueError`,
because 0 is not in the list either. -/
theorem slider_fallback_counterexample :
    (ListSliderValues.mk []).at' 0 = none ∧
    (ListSliderValues.mk [5]).index 7 = none := by
  constructor
  · exact pyGet_nil _
  · norm_num [ListSliderValues.index, ListSliderValues.default, pyListIndex]

/-- C2 (amended): out-of-range `at`/`index` on the Range backend never
errors and substitutes the midpoint.  On the List backend, `at` never
errors for a non-empty list and substitutes the element at the default
index 0 when the argument is out of range; `index` substitutes the
numeric default 0 for an absent argument and returns the position of the
first occurrence of 0, which errors (`ValueError`) when the list contains
neither the argument nor the number 0 — in particular both `at` and
`index` error on the empty list. -/
theorem slider_fallback_policy (r : Range) (xs : List ℚ) (v : ℚ) :
    (¬ (r.min ≤ v ∧ v ≤ r.max) →
      (RangeSliderValues.ofRange r).at' v = (r.min + r.max) * (1/2) ∧
      (RangeSliderValues.ofRange r).index v = (r.min + r.max) * (1/2)) ∧
    (xs ≠ [] → ((ListSliderValues.mk xs).at' v).isSome = true) ∧
    (¬ ((ListSliderValues.mk xs).min ≤ v ∧ v ≤ (ListSliderValues.mk xs).max) →
      (ListSliderValues.mk xs).at' v = xs[0]?) ∧
    (v ∉ xs →
      (ListSliderValues.mk xs).index v
        = (pyListIndex xs 0).map (fun n => (n : ℚ))) ∧
    (v ∉ xs → (0 : ℚ) ∉ xs → (ListSliderValues.mk xs).index v = none) := by
  refine ⟨?_, ?_, ?_, ?_, ?_⟩
  · intro h
    constructor
    · unfold RangeSliderValues.at' RangeSliderValues.ofRange
      rw [if_pos h]
    · unfold RangeSliderValues.index RangeSliderValues.ofRange
      rw [if_pos h]
  · intro hne
    rw [ListSliderValues.at_eq]
    by_cases hin : (ListSliderValues.mk xs).min ≤ v ∧ v ≤ (ListSliderValues.mk xs).max
    · rw [if_neg (not_not_intro hin)]
      have h0 : 0 ≤ pyRound v := by
        refine pyRound_nonneg_of v ?_
        have h := hin.1
        rw [ListSliderValues.min] at h
        exact h
      have hL : pyRound v < (xs.length : ℤ) := by
        refine pyRound_lt_length v xs.length ?_
        have h := hin.2
        rw [ListSliderValues.max, ListSliderValues.values_mk] at h
        exact h
      have hidx : (pyRound v).toNat < xs.length := by omega
      rw [ListSliderValues.values_mk]
      unfold pyGet
      rw [if_pos h0, List.getElem?_eq_getElem hidx]
      rfl
    · rw [if_pos hin]
      simp only [ListSliderValues.default]
      rw [pyRound_zero]
      have hidx : (0 : ℤ).toNat < xs.length := by
        simpa using List.length_pos.mpr hne
      unfold pyGet
      rw [if_pos le_rfl, List.getElem?_eq_getElem hidx]
      rfl
  · intro h
    rw [ListSliderValues.at_eq, if_pos h]
    simp only [ListSliderValues.default]
    rw [pyRound_zero]
    unfold pyGet
    rw [if_pos le_rfl]
    rfl
  · intro h
    rw [ListSliderValues.index_eq, if_pos h]
    simp only [ListSliderValues.default]
  · intro h h0
    rw [ListSliderValues.index_eq, if_pos h]
    simp only [ListSliderValues.default]
    rw [pyListIndex_not_mem xs 0 h0]
    rfl

/-- Witness for C2 (amended) at `Range(0, 100)` with argument 999 and at
the lists `[5, 7]` (non-empty, not containing 0) with argument 999. -/
theorem slider_fallback_policy_witness :
    ¬ (((⟨0, 100⟩ : Range)).min ≤ 999 ∧ (999 : ℚ) ≤ ((⟨0, 100⟩ : Range)).max) ∧
    (RangeSliderValues.ofRange ⟨0, 100⟩).at' 999 = ((0 : ℚ) + 100) * (1/2) ∧
    (RangeSliderValues.ofRange ⟨0, 100⟩).index 999 = ((0 : ℚ) + 100) * (1/2) ∧
    ([5, 7] : List ℚ) ≠ [] ∧
    ((ListSliderValues.mk [5, 7]).at' 999).isSome = true ∧
    (999 : ℚ) ∉ ([5, 7] : List ℚ) ∧
    (ListSliderValues.mk [5, 7]).index 999 = none := by
  have h := slider_fallback_policy ⟨0, 100⟩ [5, 7] 999
  have hout : ¬ (((⟨0, 100⟩ : Range)).min ≤ 999 ∧ (999 : ℚ) ≤ ((⟨0, 100⟩ : Range)).max) := by
    norm_num
  have hmem : (999 : ℚ) ∉ ([5, 7] : List ℚ) := by norm_num
  exact ⟨hout, (h.1 hout).1, (h.1 hout).2, by simp, h.2.1 (by simp),
    hmem, h.2.2.2.2 hmem (by norm_num)⟩

/-- C4: round-trip of the `at`/`index` pair.  For the Range backend,
`at(index(v)) = v` for every `v` in `[min, max]`; for the List backend,
`at(index(e)) = e` for every element `e` of the backing list, where
`index` finds the first occurrence of `e`. -/
theorem at_index_roundtrip (r : Range) (xs : List ℚ) :
    (∀ v : ℚ, r.min ≤ v → v ≤ r.max →
      (RangeSliderValues.ofRange r).at' ((RangeSliderValues.ofRange r).index v) = v) ∧
    (∀ e : ℚ, e ∈ xs →
      ((ListSliderValues.mk xs).index e).bind (ListSliderValues.mk xs).at' = some e) := by
  constructor
  · intro v h1 h2
    have hidx : (RangeSliderValues.ofRange r).index v = v := by
      unfold RangeSliderValues.index RangeSliderValues.ofRange
      dsimp only
      rw [if_neg (not_not_intro ⟨h1, h2⟩)]
    rw [hidx]
    unfold RangeSliderValues.at' RangeSliderValues.ofRange
    dsimp only
    rw [if_neg (not_not_intro ⟨h1, h2⟩)]
  · intro e he
    obtain ⟨n, hfind, hlen, hget⟩ := pyListIndex_mem xs e he
    have hidx : (ListSliderValues.mk xs).index e = some ((n : ℕ) : ℚ) := by
      rw [ListSliderValues.index_eq, if_neg (not_not_intro he),
        ListSliderValues.values_mk, hfind]
      rfl
    rw [hidx, Option.some_bind, ListSliderValues.at_eq]
    have hcond : (ListSliderValues.mk xs).min ≤ ((n : ℕ) : ℚ) ∧
        ((n : ℕ) : ℚ) ≤ (ListSliderValues.mk xs).max := by
      constructor
      · rw [ListSliderValues.min]
        have hn : (0 : ℚ) ≤ ((n : ℕ) : ℚ) := by positivity
        linarith
      · rw [ListSliderValues.max, ListSliderValues.values_mk]
        have hq : ((n : ℕ) : ℚ) ≤ (xs.length : ℚ) - 1 := by
          have hz : (n : ℤ) ≤ (xs.length : ℤ) - 1 := by omega
          exact_mod_cast hz
        linarith
    rw [if_neg (not_not_intro hcond), pyRound_natCast, ListSliderValues.values_mk]
    unfold pyGet
    rw [if_pos (Int.natCast_nonneg n), Int.toNat_natCast]
    exact hget

/-- `pyRound` at a point strictly inside the lower half of an integer gap. -/
theorem pyRound_eq_of_lt_half (q : ℚ) (n : ℤ) (h1 : (n : ℚ) ≤ q)
    (h2 : q < (n : ℚ) + 1/2) : pyRound q = n := by
  have hf : ⌊q⌋ = n := Int.floor_eq_iff.mpr ⟨h1, by linarith⟩
  have hfr : Int.fract q < 1/2 := by
    unfold Int.fract
    rw [hf]
    linarith
  unfold pyRound
  rw [if_pos hfr, hf]

/-- `pyRound` at a point strictly inside the upper half of an integer gap. -/
theorem pyRound_eq_of_half_lt (q : ℚ) (n : ℤ) (h1 : (n : ℚ) + 1/2 < q)
    (h2 : q < (n : ℚ) + 1) : pyRound q = n + 1 := by
  have hf : ⌊q⌋ = n := Int.floor_eq_iff.mpr ⟨by linarith, by linarith⟩
  have hfr : 1/2 < Int.fract q := by
    unfold Int.fract
    rw [hf]
    linarith
  unfold pyRound
  rw [if_neg (not_lt.mpr hfr.le), if_pos hfr, hf]

/-- `pyRound` at an exact half above an even integer rounds down (to even). -/
theorem pyRound_eq_half_even (q : ℚ) (n : ℤ) (h : q = (n : ℚ) + 1/2)
    (he : n % 2 = 0) : pyRound q = n := by
  have hf : ⌊q⌋ = n := Int.floor_eq_iff.mpr ⟨by rw [h]; linarith, by rw [h]; linarith⟩
  have hfr : Int.fract q = 1/2 := by
    unfold Int.fract
    rw [hf, h]
    ring
  unfold pyRound
  rw [hfr, hf]
  norm_num [he]

/-- `fl` on a positive value whose binade is known rounds the 53-bit
mantissa with `pyRound`. -/
theorem fl_eval (q : ℚ) (e : ℤ) (h1 : (2 : ℚ) ^ (e + 52) ≤ q)
    (h2 : q < (2 : ℚ) ^ (e + 53)) :
    fl q = (pyRound (q / 2 ^ e) : ℚ) * 2 ^ e := by
  have h0 : 0 < q := lt_of_lt_of_le (by positivity) h1
  have hlog : Int.log 2 q = e + 52 := by
    have hle : e + 52 ≤ Int.log 2 q := by
      rw [← Int.zpow_le_iff_le_log one_lt_two h0]
      push_cast
      exact h1
    have hlt : Int.log 2 q < e + 53 := by
      rw [← Int.lt_zpow_iff_log_lt one_lt_two h0]
      push_cast
      exact h2
    omega
  have he : e + 52 - 52 = e := by ring
  unfold fl
  rw [if_pos h0, hlog, he]

/-- One successful test of the accumulation loop. -/
theorem floatRangeF_cons (fuel : ℕ) (start endv step s' : ℚ) (h : start < endv)
    (hs : fl (start + step) = s') :
    floatRangeF (fuel + 1) start endv step = start :: floatRangeF fuel s' endv step := by
  rw [floatRangeF, if_pos h, hs]

/-- The loop test failing ends the run. -/
theorem floatRangeF_nil (fuel : ℕ) (start endv step : ℚ) (h : ¬ start < endv) :
    floatRangeF (fuel + 1) start endv step = [] := by
  rw [floatRangeF, if_neg h]

/-- A run that exits through the loop condition within its fuel is stable
under more fuel: it is the generator's entire yield sequence. -/
theorem floatRangeF_mono (endv step : ℚ) :
    ∀ (n m : ℕ) (start : ℚ), n ≤ m →
      (floatRangeF n start endv step).length < n →
      floatRangeF m start endv step = floatRangeF n start endv step := by
  intro n
  induction n with
  | zero =>
    intro m start _ hlen
    exact absurd hlen (Nat.not_lt_zero _)
  | succ n ih =>
    intro m start hnm hlen
    obtain ⟨m', rfl⟩ : ∃ m', m = m' + 1 := ⟨m - 1, by omega⟩
    rw [floatRangeF] at hlen ⊢
    rw [floatRangeF]
    by_cases hc : start < endv
    · rw [if_pos hc] at hlen ⊢
      rw [if_pos hc]
      have hlen' : (floatRangeF n (fl (start + step)) endv step).length < n := by
        simpa using hlen
      rw [ih m' (fl (start + step)) (by omega) hlen']
    · rw [if_neg hc, if_neg hc]

/-- C3's contract — exactly `amount` pairs, angles in steps of
`360/amount` — is the spec's intent, but binary64 accumulation breaks it:
at `amount = 13` the thirteen float additions of `fl(360/13)` only reach
`359.99999999999994 < 360`, so the loop runs once more and yields a
fourteenth pair whose angle rounds to `360` (duplicating the top of the
circle); at `amount = 4` (step 90, exact in binary64) the run matches the
claim.  Stated for every fuel margin, so the lists below are the whole
yield sequences of the generator. -/
theorem angle_iterator_float_run (extra : ℕ) (c : ℚ → ℤ × ℤ) (cd radius : ℤ) :
    ((AngleIterator.mk cd radius 13).iterF (15 + extra) c).length = 13 + 1 ∧
    ((AngleIterator.mk cd radius 13).iterF (15 + extra) c).map Prod.fst
      = [0, 28, 55, 83, 111, 138, 166, 194, 222, 249, 277, 305, 332, 360] ∧
    ((AngleIterator.mk cd radius 4).iterF (5 + extra) c).map Prod.fst
      = [0, 90, 180, 270] := by
  have hstep : fl ((360 : ℚ) / 13) = (7794691662756628 : ℚ) / 2 ^ 48 := by
    rw [fl_eval ((360 : ℚ) / 13) (-48) (by norm_num) (by norm_num),
      pyRound_eq_of_half_lt ((360 : ℚ) / 13 / 2 ^ ((-48) : ℤ)) 7794691662756627 (by norm_num) (by norm_num)]
    norm_num
  have e1 : fl ((0 : ℚ) + (7794691662756628 : ℚ) / 2 ^ 48) = (7794691662756628 : ℚ) / 2 ^ 48 := by
    have hsum : (0 : ℚ) + (7794691662756628 : ℚ) / 2 ^ 48 = (7794691662756628 : ℚ) / 2 ^ 48 := by norm_num
    rw [hsum, fl_eval ((7794691662756628 : ℚ) / 2 ^ 48) (-48) (by norm_num) (by norm_num),
      pyRound_eq_of_lt_half ((7794691662756628 : ℚ) / 2 ^ 48 / 2 ^ ((-48) : ℤ)) 7794691662756628 (by norm_num) (by norm_num)]
    norm_num
  have e2 : fl ((7794691662756628 : ℚ) / 2 ^ 48 + (7794691662756628 : ℚ) / 2 ^ 48) = (15589383325513256 : ℚ) / 2 ^ 48 := by
    have hsum : (7794691662756628 : ℚ) / 2 ^ 48 + (7794691662756628 : ℚ) / 2 ^ 48 = (15589383325513256 : ℚ) / 2 ^ 48 := by norm_num
    rw [hsum, fl_eval ((15589383325513256 : ℚ) / 2 ^ 48) (-47) (by norm_num) (by norm_num),
      pyRound_eq_of_lt_half ((15589383325513256 : ℚ) / 2 ^ 48 / 2 ^ ((-47) : ℤ)) 7794691662756628 (by norm_num) (by norm_num)]
    norm_num
  have e3 : fl ((15589383325513256 : ℚ) / 2 ^ 48 + (7794691662756628 : ℚ) / 2 ^ 48) = (23384074988269884 : ℚ) / 2 ^ 48 := by
    have hsum : (15589383325513256 : ℚ) / 2 ^ 48 + (7794691662756628 : ℚ) / 2 ^ 48 = (23384074988269884 : ℚ) / 2 ^ 48 := by norm_num
    rw [hsum, fl_eval ((23384074988269884 : ℚ) / 2 ^ 48) (-46) (by norm_num) (by norm_num),
      pyRound_eq_of_lt_half ((23384074988269884 : ℚ) / 2 ^ 48 / 2 ^ ((-46) : ℤ)) 5846018747067471 (by norm_num) (by norm_num)]
    norm_num
  have e4 : fl ((23384074988269884 : ℚ) / 2 ^ 48 + (7794691662756628 : ℚ) / 2 ^ 48) = (31178766651026512 : ℚ) / 2 ^ 48 := by
    have hsum : (23384074988269884 : ℚ) / 2 ^ 48 + (7794691662756628 : ℚ) / 2 ^ 48 = (31178766651026512 : ℚ) / 2 ^ 48 := by norm_num
    rw [hsum, fl_eval ((31178766651026512 : ℚ) / 2 ^ 48) (-46) (by norm_num) (by norm_num),
      pyRound_eq_of_lt_half ((31178766651026512 : ℚ) / 2 ^ 48 / 2 ^ ((-46) : ℤ)) 7794691662756628 (by norm_num) (by norm_num)]
    norm_num
  have e5 : fl ((31178766651026512 : ℚ) / 2 ^ 48 + (7794691662756628 : ℚ) / 2 ^ 48) = (38973458313783136 : ℚ) / 2 ^ 48 := by
    have hsum : (31178766651026512 : ℚ) / 2 ^ 48 + (7794691662756628 : ℚ) / 2 ^ 48 = (38973458313783140 : ℚ) / 2 ^ 48 := by norm_num
    rw [hsum, fl_eval ((38973458313783140 : ℚ) / 2 ^ 48) (-45) (by norm_num) (by norm_num),
      pyRound_eq_half_even ((38973458313783140 : ℚ) / 2 ^ 48 / 2 ^ ((-45) : ℤ)) 4871682289222892 (by norm_num) (by norm_num)]
    norm_num
  have e6 : fl ((38973458313783136 : ℚ) / 2 ^ 48 + (7794691662756628 : ℚ) / 2 ^ 48) = (46768149976539760 : ℚ) / 2 ^ 48 := by
    have hsum : (38973458313783136 : ℚ) / 2 ^ 48 + (7794691662756628 : ℚ) / 2 ^ 48 = (46768149976539764 : ℚ) / 2 ^ 48 := by norm_num
    rw [hsum, fl_eval ((46768149976539764 : ℚ) / 2 ^ 48) (-45) (by norm_num) (by norm_num),
      pyRound_eq_half_even ((46768149976539764 : ℚ) / 2 ^ 48 / 2 ^ ((-45) : ℤ)) 5846018747067470 (by norm_num) (by norm_num)]
    norm_num
  have e7 : fl ((46768149976539760 : ℚ) / 2 ^ 48 + (7794691662756628 : ℚ) / 2 ^ 48) = (54562841639296384 : ℚ) / 2 ^ 48 := by
    have hsum : (46768149976539760 : ℚ) / 2 ^ 48 + (7794691662756628 : ℚ) / 2 ^ 48 = (54562841639296388 : ℚ) / 2 ^ 48 := by norm_num
    rw [hsum, fl_eval ((54562841639296388 : ℚ) / 2 ^ 48) (-45) (by norm_num) (by norm_num),
      pyRound_eq_half_even ((54562841639296388 : ℚ) / 2 ^ 48 / 2 ^ ((-45) : ℤ)) 6820355204912048 (by norm_num) (by norm_num)]
    norm_num
  have e8 : fl ((54562841639296384 : ℚ) / 2 ^ 48 + (7794691662756628 : ℚ) / 2 ^ 48) = (62357533302053008 : ℚ) / 2 ^ 48 := by
    have hsum : (54562841639296384 : ℚ) / 2 ^ 48 + (7794691662756628 : ℚ) / 2 ^ 48 = (62357533302053012 : ℚ) / 2 ^ 48 := by norm_num
    rw [hsum, fl_eval ((62357533302053012 : ℚ) / 2 ^ 48) (-45) (by norm_num) (by norm_num),
      pyRound_eq_half_even ((62357533302053012 : ℚ) / 2 ^ 48 / 2 ^ ((-45) : ℤ)) 7794691662756626 (by norm_num) (by norm_num)]
    norm_num
  have e9 : fl ((62357533302053008 : ℚ) / 2 ^ 48 + (7794691662756628 : ℚ) / 2 ^ 48) = (70152224964809632 : ℚ) / 2 ^ 48 := by
    have hsum : (62357533302053008 : ℚ) / 2 ^ 48 + (7794691662756628 : ℚ) / 2 ^ 48 = (70152224964809636 : ℚ) / 2 ^ 48 := by norm_num
    rw [hsum, fl_eval ((70152224964809636 : ℚ) / 2 ^ 48) (-45) (by norm_num) (by norm_num),
      pyRound_eq_half_even ((70152224964809636 : ℚ) / 2 ^ 48 / 2 ^ ((-45) : ℤ)) 8769028120601204 (by norm_num) (by norm_num)]
    norm_num
  have e10 : fl ((70152224964809632 : ℚ) / 2 ^ 48 + (7794691662756628 : ℚ) / 2 ^ 48) = (77946916627566256 : ℚ) / 2 ^ 48 := by
    have hsum : (70152224964809632 : ℚ) / 2 ^ 48 + (7794691662756628 : ℚ) / 2 ^ 48 = (77946916627566260 : ℚ) / 2 ^ 48 := by norm_num
    rw [hsum, fl_eval ((77946916627566260 : ℚ) / 2 ^ 48) (-44) (by norm_num) (by norm_num),
      pyRound_eq_of_lt_half ((77946916627566260 : ℚ) / 2 ^ 48 / 2 ^ ((-44) : ℤ)) 4871682289222891 (by norm_num) (by norm_num)]
    norm_num
  have e11 : fl ((77946916627566256 : ℚ) / 2 ^ 48 + (7794691662756628 : ℚ) / 2 ^ 48) = (85741608290322880 : ℚ) / 2 ^ 48 := by
    have hsum : (77946916627566256 : ℚ) / 2 ^ 48 + (7794691662756628 : ℚ) / 2 ^ 48 = (85741608290322884 : ℚ) / 2 ^ 48 := by norm_num
    rw [hsum, fl_eval ((85741608290322884 : ℚ) / 2 ^ 48) (-44) (by norm_num) (by norm_num),
      pyRound_eq_of_lt_half ((85741608290322884 : ℚ) / 2 ^ 48 / 2 ^ ((-44) : ℤ)) 5358850518145180 (by norm_num) (by norm_num)]
    norm_num
  have e12 : fl ((85741608290322880 : ℚ) / 2 ^ 48 + (7794691662756628 : ℚ) / 2 ^ 48) = (93536299953079504 : ℚ) / 2 ^ 48 := by
    have hsum : (85741608290322880 : ℚ) / 2 ^ 48 + (7794691662756628 : ℚ) / 2 ^ 48 = (93536299953079508 : ℚ) / 2 ^ 48 := by norm_num
    rw [hsum, fl_eval ((93536299953079508 : ℚ) / 2 ^ 48) (-44) (by norm_num) (by norm_num),
      pyRound_eq_of_lt_half ((93536299953079508 : ℚ) / 2 ^ 48 / 2 ^ ((-44) : ℤ)) 5846018747067469 (by norm_num) (by norm_num)]
    norm_num
  have e13 : fl ((93536299953079504 : ℚ) / 2 ^ 48 + (7794691662756628 : ℚ) / 2 ^ 48) = (101330991615836128 : ℚ) / 2 ^ 48 := by
    have hsum : (93536299953079504 : ℚ) / 2 ^ 48 + (7794691662756628 : ℚ) / 2 ^ 48 = (101330991615836132 : ℚ) / 2 ^ 48 := by norm_num
    rw [hsum, fl_eval ((101330991615836132 : ℚ) / 2 ^ 48) (-44) (by norm_num) (by norm_num),
      pyRound_eq_of_lt_half ((101330991615836132 : ℚ) / 2 ^ 48 / 2 ^ ((-44) : ℤ)) 6333186975989758 (by norm_num) (by norm_num)]
    norm_num
  have e14 : fl ((101330991615836128 : ℚ) / 2 ^ 48 + (7794691662756628 : ℚ) / 2 ^ 48) = (109125683278592752 : ℚ) / 2 ^ 48 := by
    have hsum : (101330991615836128 : ℚ) / 2 ^ 48 + (7794691662756628 : ℚ) / 2 ^ 48 = (109125683278592756 : ℚ) / 2 ^ 48 := by norm_num
    rw [hsum, fl_eval ((109125683278592756 : ℚ) / 2 ^ 48) (-44) (by norm_num) (by norm_num),
      pyRound_eq_of_lt_half ((109125683278592756 : ℚ) / 2 ^ 48 / 2 ^ ((-44) : ℤ)) 6820355204912047 (by norm_num) (by norm_num)]
    norm_num
  have hrun : floatRangeF 15 0 360 ((7794691662756628 : ℚ) / 2 ^ 48)
      = [(0 : ℚ),
      (7794691662756628 : ℚ) / 2 ^ 48,
      (15589383325513256 : ℚ) / 2 ^ 48,
      (23384074988269884 : ℚ) / 2 ^ 48,
      (31178766651026512 : ℚ) / 2 ^ 48,
      (38973458313783136 : ℚ) / 2 ^ 48,
      (46768149976539760 : ℚ) / 2 ^ 48,
      (54562841639296384 : ℚ) / 2 ^ 48,
      (62357533302053008 : ℚ) / 2 ^ 48,
      (70152224964809632 : ℚ) / 2 ^ 48,
      (77946916627566256 : ℚ) / 2 ^ 48,
      (85741608290322880 : ℚ) / 2 ^ 48,
      (93536299953079504 : ℚ) / 2 ^ 48,
      (101330991615836128 : ℚ) / 2 ^ 48] := by
    rw [floatRangeF_cons 14 _ _ _ _ (by norm_num) e1,
      floatRangeF_cons 13 _ _ _ _ (by norm_num) e2,
      floatRangeF_cons 12 _ _ _ _ (by norm_num) e3,
      floatRangeF_cons 11 _ _ _ _ (by norm_num) e4,
      floatRangeF_cons 10 _ _ _ _ (by norm_num) e5,
      floatRangeF_cons 9 _ _ _ _ (by norm_num) e6,
      floatRangeF_cons 8 _ _ _ _ (by norm_num) e7,
      floatRangeF_cons 7 _ _ _ _ (by norm_num) e8,
      floatRangeF_cons 6 _ _ _ _ (by norm_num) e9,
      floatRangeF_cons 5 _ _ _ _ (by norm_num) e10,
      floatRangeF_cons 4 _ _ _ _ (by norm_num) e11,
      floatRangeF_cons 3 _ _ _ _ (by norm_num) e12,
      floatRangeF_cons 2 _ _ _ _ (by norm_num) e13,
      floatRangeF_cons 1 _ _ _ _ (by norm_num) e14,
      floatRangeF_nil 0 _ _ _ (by norm_num)]
  have r0 : pyRound ((0 : ℚ)) = 0 :=
    pyRound_eq_of_lt_half ((0 : ℚ)) 0 (by norm_num) (by norm_num)
  have r1 : pyRound ((7794691662756628 : ℚ) / 2 ^ 48) = 28 :=
    pyRound_eq_of_half_lt ((7794691662756628 : ℚ) / 2 ^ 48) 27 (by norm_num) (by norm_num)
  have r2 : pyRound ((15589383325513256 : ℚ) / 2 ^ 48) = 55 :=
    pyRound_eq_of_lt_half ((15589383325513256 : ℚ) / 2 ^ 48) 55 (by norm_num) (by norm_num)
  have r3 : pyRound ((23384074988269884 : ℚ) / 2 ^ 48) = 83 :=
    pyRound_eq_of_lt_half ((23384074988269884 : ℚ) / 2 ^ 48) 83 (by norm_num) (by norm_num)
  have r4 : pyRound ((31178766651026512 : ℚ) / 2 ^ 48) = 111 :=
    pyRound_eq_of_half_lt ((31178766651026512 : ℚ) / 2 ^ 48) 110 (by norm_num) (by norm_num)
  have r5 : pyRound ((38973458313783136 : ℚ) / 2 ^ 48) = 138 :=
    pyRound_eq_of_lt_half ((38973458313783136 : ℚ) / 2 ^ 48) 138 (by norm_num) (by norm_num)
  have r6 : pyRound ((46768149976539760 : ℚ) / 2 ^ 48) = 166 :=
    pyRound_eq_of_lt_half ((46768149976539760 : ℚ) / 2 ^ 48) 166 (by norm_num) (by norm_num)
  have r7 : pyRound ((54562841639296384 : ℚ) / 2 ^ 48) = 194 :=
    pyRound_eq_of_half_lt ((54562841639296384 : ℚ) / 2 ^ 48) 193 (by norm_num) (by norm_num)
  have r8 : pyRound ((62357533302053008 : ℚ) / 2 ^ 48) = 222 :=
    pyRound_eq_of_half_lt ((62357533302053008 : ℚ) / 2 ^ 48) 221 (by norm_num) (by norm_num)
  have r9 : pyRound ((70152224964809632 : ℚ) / 2 ^ 48) = 249 :=
    pyRound_eq_of_lt_half ((70152224964809632 : ℚ) / 2 ^ 48) 249 (by norm_num) (by norm_num)
  have r10 : pyRound ((77946916627566256 : ℚ) / 2 ^ 48) = 277 :=
    pyRound_eq_of_half_lt ((77946916627566256 : ℚ) / 2 ^ 48) 276 (by norm_num) (by norm_num)
  have r11 : pyRound ((85741608290322880 : ℚ) / 2 ^ 48) = 305 :=
    pyRound_eq_of_half_lt ((85741608290322880 : ℚ) / 2 ^ 48) 304 (by norm_num) (by norm_num)
  have r12 : pyRound ((93536299953079504 : ℚ) / 2 ^ 48) = 332 :=
    pyRound_eq_of_lt_half ((93536299953079504 : ℚ) / 2 ^ 48) 332 (by norm_num) (by norm_num)
  have r13 : pyRound ((101330991615836128 : ℚ) / 2 ^ 48) = 360 :=
    pyRound_eq_of_half_lt ((101330991615836128 : ℚ) / 2 ^ 48) 359 (by norm_num) (by norm_num)
  have hstep4 : fl ((360 : ℚ) / 4) = (90 : ℚ) := by
    have hq : (360 : ℚ) / 4 = (90 : ℚ) := by norm_num
    rw [hq, fl_eval ((90 : ℚ)) (-46) (by norm_num) (by norm_num),
      pyRound_eq_of_lt_half ((90 : ℚ) / 2 ^ ((-46) : ℤ)) 6333186975989760 (by norm_num) (by norm_num)]
    norm_num
  have f1 : fl ((0 : ℚ) + (90 : ℚ)) = (90 : ℚ) := by
    have hsum : (0 : ℚ) + (90 : ℚ) = (90 : ℚ) := by norm_num
    rw [hsum, fl_eval ((90 : ℚ)) (-46) (by norm_num) (by norm_num),
      pyRound_eq_of_lt_half ((90 : ℚ) / 2 ^ ((-46) : ℤ)) 6333186975989760 (by norm_num) (by norm_num)]
    norm_num
  have f2 : fl ((90 : ℚ) + (90 : ℚ)) = (180 : ℚ) := by
    have hsum : (90 : ℚ) + (90 : ℚ) = (180 : ℚ) := by norm_num
    rw [hsum, fl_eval ((180 : ℚ)) (-45) (by norm_num) (by norm_num),
      pyRound_eq_of_lt_half ((180 : ℚ) / 2 ^ ((-45) : ℤ)) 6333186975989760 (by norm_num) (by norm_num)]
    norm_num
  have f3 : fl ((180 : ℚ) + (90 : ℚ)) = (270 : ℚ) := by
    have hsum : (180 : ℚ) + (90 : ℚ) = (270 : ℚ) := by norm_num
    rw [hsum, fl_eval ((270 : ℚ)) (-44) (by norm_num) (by norm_num),
      pyRound_eq_of_lt_half ((270 : ℚ) / 2 ^ ((-44) : ℤ)) 4749890231992320 (by norm_num) (by norm_num)]
    norm_num
  have f4 : fl ((270 : ℚ) + (90 : ℚ)) = (360 : ℚ) := by
    have hsum : (270 : ℚ) + (90 : ℚ) = (360 : ℚ) := by norm_num
    rw [hsum, fl_eval ((360 : ℚ)) (-44) (by norm_num) (by norm_num),
      pyRound_eq_of_lt_half ((360 : ℚ) / 2 ^ ((-44) : ℤ)) 6333186975989760 (by norm_num) (by norm_num)]
    norm_num
  have hrun4 : floatRangeF 5 0 360 (90 : ℚ) = [(0 : ℚ), (90 : ℚ), (180 : ℚ), (270 : ℚ)] := by
    rw [floatRangeF_cons 4 _ _ _ _ (by norm_num) f1,
      floatRangeF_cons 3 _ _ _ _ (by norm_num) f2,
      floatRangeF_cons 2 _ _ _ _ (by norm_num) f3,
      floatRangeF_cons 1 _ _ _ _ (by norm_num) f4,
      floatRangeF_nil 0 _ _ _ (by norm_num)]
  have q0 : pyRound ((0 : ℚ)) = 0 :=
    pyRound_eq_of_lt_half ((0 : ℚ)) 0 (by norm_num) (by norm_num)
  have q1 : pyRound ((90 : ℚ)) = 90 :=
    pyRound_eq_of_lt_half ((90 : ℚ)) 90 (by norm_num) (by norm_num)
  have q2 : pyRound ((180 : ℚ)) = 180 :=
    pyRound_eq_of_lt_half ((180 : ℚ)) 180 (by norm_num) (by norm_num)
  have q3 : pyRound ((270 : ℚ)) = 270 :=
    pyRound_eq_of_lt_half ((270 : ℚ)) 270 (by norm_num) (by norm_num)
  have hstable : floatRangeF (15 + extra) 0 360 ((7794691662756628 : ℚ) / 2 ^ 48)
      = [(0 : ℚ),
      (7794691662756628 : ℚ) / 2 ^ 48,
      (15589383325513256 : ℚ) / 2 ^ 48,
      (23384074988269884 : ℚ) / 2 ^ 48,
      (31178766651026512 : ℚ) / 2 ^ 48,
      (38973458313783136 : ℚ) / 2 ^ 48,
      (46768149976539760 : ℚ) / 2 ^ 48,
      (54562841639296384 : ℚ) / 2 ^ 48,
      (62357533302053008 : ℚ) / 2 ^ 48,
      (70152224964809632 : ℚ) / 2 ^ 48,
      (77946916627566256 : ℚ) / 2 ^ 48,
      (85741608290322880 : ℚ) / 2 ^ 48,
      (93536299953079504 : ℚ) / 2 ^ 48,
      (101330991615836128 : ℚ) / 2 ^ 48] := by
    rw [floatRangeF_mono 360 ((7794691662756628 : ℚ) / 2 ^ 48) 15 (15 + extra) 0 (by omega)
      (by rw [hrun]; simp), hrun]
  have hstable4 : floatRangeF (5 + extra) 0 360 (90 : ℚ)
      = [(0 : ℚ), (90 : ℚ), (180 : ℚ), (270 : ℚ)] := by
    rw [floatRangeF_mono 360 (90 : ℚ) 5 (5 + extra) 0 (by omega)
      (by rw [hrun4]; simp), hrun4]
  have hiter : (AngleIterator.mk cd radius 13).iterF (15 + extra) c
      = ([(0 : ℚ),
      (7794691662756628 : ℚ) / 2 ^ 48,
      (15589383325513256 : ℚ) / 2 ^ 48,
      (23384074988269884 : ℚ) / 2 ^ 48,
      (31178766651026512 : ℚ) / 2 ^ 48,
      (38973458313783136 : ℚ) / 2 ^ 48,
      (46768149976539760 : ℚ) / 2 ^ 48,
      (54562841639296384 : ℚ) / 2 ^ 48,
      (62357533302053008 : ℚ) / 2 ^ 48,
      (70152224964809632 : ℚ) / 2 ^ 48,
      (77946916627566256 : ℚ) / 2 ^ 48,
      (85741608290322880 : ℚ) / 2 ^ 48,
      (93536299953079504 : ℚ) / 2 ^ 48,
      (101330991615836128 : ℚ) / 2 ^ 48] : List ℚ).map (fun angle => (pyRound angle, c angle)) := by
    unfold AngleIterator.iterF
    have hamount : (((AngleIterator.mk cd radius 13).amount : ℕ) : ℚ) = 13 := by
      norm_num
    rw [hamount, hstep, hstable]
  have hiter4 : (AngleIterator.mk cd radius 4).iterF (5 + extra) c
      = ([(0 : ℚ), (90 : ℚ), (180 : ℚ), (270 : ℚ)] : List ℚ).map (fun angle => (pyRound angle, c angle)) := by
    unfold AngleIterator.iterF
    have hamount : (((AngleIterator.mk cd radius 4).amount : ℕ) : ℚ) = 4 := by
      norm_num
    rw [hamount, hstep4, hstable4]
  refine ⟨?_, ?_, ?_⟩
  · rw [hiter]
    simp
  · rw [hiter]
    simp only [List.map_map, List.map_cons, List.map_nil, Function.comp_apply]
    rw [r0, r1, r2, r3, r4, r5, r6, r7, r8, r9, r10, r11, r12, r13]
  · rw [hiter4]
    simp only [List.map_map, List.map_cons, List.map_nil, Function.comp_apply]
    rw [q0, q1, q2, q3]

/-- C8: deadzone gating.  While the handler is working, the value-setting
loop is not entered as long as every sampled displacement from the start
point is at most the deadzone; the first sample with displacement strictly
beyond the deadzone (all earlier samples in range with the working flag
set) enters the tracking loop. -/
theorem deadzone_gating (deadzone start_point : ℤ) :
    (∀ samples : List (ℤ × Bool),
      (∀ p ∈ samples, |start_point - p.1| ≤ deadzone) →
      start_after_deadzone deadzone start_point samples ≠ HandlerOutcome.tracking) ∧
    (∀ (pre : List (ℤ × Bool)) (mouse : ℤ) (working : Bool) (rest : List (ℤ × Bool)),
      (∀ p ∈ pre, |start_point - p.1| ≤ deadzone ∧ p.2 = true) →
      deadzone < |start_point - mouse| →
      start_after_deadzone deadzone start_point (pre ++ (mouse, working) :: rest)
        = HandlerOutcome.tracking) := by
  constructor
  · intro samples
    induction samples with
    | nil =>
      intro _
      simp [start_after_deadzone]
    | cons p rest ih =>
      intro hall
      obtain ⟨mouse, working⟩ := p
      have hp := hall (mouse, working) (List.mem_cons_self _ _)
      simp only [start_after_deadzone]
      rw [if_pos hp]
      cases working
      · simp
      · simpa using ih fun q hq => hall q (List.mem_cons_of_mem _ hq)
  · intro pre mouse working rest
    induction pre with
    | nil =>
      intro _ hfar
      simp only [List.nil_append, start_after_deadzone]
      rw [if_neg (not_le.mpr hfar)]
    | cons p pre ih =>
      intro hall hfar
      obtain ⟨m, w⟩ := p
      have hp := hall (m, w) (List.mem_cons_self _ _)
      simp only [List.cons_append, start_after_deadzone]
      rw [if_pos hp.1]
      have hw : w = true := hp.2
      subst hw
      simpa using ih (fun q hq => hall q (List.mem_cons_of_mem _ hq)) hfar

/-- Witness for C8 with deadzone 10 and start point 0: a sample displaced
by exactly the deadzone (10) does not enter tracking; a subsequent sample
one pixel beyond (11) does. -/
theorem deadzone_gating_witness :
    (∀ p ∈ ([((10 : ℤ), true)] : List (ℤ × Bool)), |(0 : ℤ) - p.1| ≤ 10) ∧
    start_after_deadzone 10 0 [((10 : ℤ), true)] ≠ HandlerOutcome.tracking ∧
    (10 : ℤ) < |(0 : ℤ) - 11| ∧
    start_after_deadzone 10 0 ([((10 : ℤ), true)] ++ (11, true) :: [])
      = HandlerOutcome.tracking := by
  have h := deadzone_gating 10 0
  have h1 : ∀ p ∈ ([((10 : ℤ), true)] : List (ℤ × Bool)), |(0 : ℤ) - p.1| ≤ 10 := by
    intro p hp
    rw [List.mem_singleton] at hp
    subst hp
    norm_num
  have h2 : ∀ p ∈ ([((10 : ℤ), true)] : List (ℤ × Bool)),
      |(0 : ℤ) - p.1| ≤ 10 ∧ p.2 = true := by
    intro p hp
    rw [List.mem_singleton] at hp
    subst hp
    norm_num
  exact ⟨h1, h.1 [((10 : ℤ), true)] h1, by norm_num,
    h.2 [((10 : ℤ), true)] 11 true [] h2 (by norm_num)⟩

/-- Witness for C4 at `Range(0, 100)` with `v = 42` and at the list
`[3, 9]` with element `e = 9`. -/
theorem at_index_roundtrip_witness :
    ((⟨0, 100⟩ : Range)).min ≤ 42 ∧ (42 : ℚ) ≤ ((⟨0, 100⟩ : Range)).max ∧
    (RangeSliderValues.ofRange ⟨0, 100⟩).at'
      ((RangeSliderValues.ofRange ⟨0, 100⟩).index 42) = 42 ∧
    (9 : ℚ) ∈ ([3, 9] : List ℚ) ∧
    ((ListSliderValues.mk [3, 9]).index 9).bind (ListSliderValues.mk [3, 9]).at'
      = some 9 := by
  have h := at_index_roundtrip ⟨0, 100⟩ [3, 9]
  exact ⟨by norm_num, by norm_num, h.1 42 (by norm_num) (by norm_num),
    by norm_num, h.2 9 (by norm_num)⟩

end ShortcutComposer
